import Mathlib

/-!
Shallow embedding of the found.as client core (src/src/app.tsx) and proofs
about it.

The embedding covers: deterministic identity derivation (`deriveKP`), the
signed request envelopes built by `updateData`, `fetchData` and `updatePw`,
the single-flight transport discipline of `post` (module-level
`AbortController` singleton), the fetch-outcome handler of the `App`
component, the document-shell wrapper `intoDoc` with its title escaping,
the content-type switch, and the file-input size gate with the publish
button's disabled condition.

Modelling conventions:
- Browser crypto primitives (`crypto.subtle.deriveBits` for PBKDF2 and
  tweetnacl's `sign.keyPair.fromSeed`) are opaque to the client code, so
  they are abstracted as a `CryptoPrimitives` record of pure functions;
  `deriveKP` is translated on top of them.  The PBKDF2 salt is carried as
  the string handed to `TextEncoder.encode` (UTF-8 encoding, an injective
  transformation, is absorbed into the opaque primitive boundary).
- The cbor-x `encode`/`decode` pair is likewise abstracted as a `Codec`
  record; payloads are described by the `CborVal` tree that the code hands
  to `encode`.
- `sign(msg, sk)` from tweetnacl returns the signature-prefixed message;
  it is modelled as the free construction `SignedBlob` recording exactly
  the signed message and the signing key.
- JS numbers that carry timestamps (`new Date().getTime() / 1000`,
  seconds since epoch at send time) are passed to the builders as a `ts`
  parameter; the clock is part of the environment.
- The `AbortController` singleton of `post` is modelled by `NetState`:
  controllers are identified by the order of their creation, and the set
  of aborted controllers is tracked explicitly.  An aborted fetch rejects
  with an error whose `name` is `"AbortError"`.
- Component state touched by the handlers (`pw`, `newPw`, `pwStatus`,
  `pathIsNew`, `priv.value`, `working`, the `window.alert` calls) is
  collected in `AppState`; each reactive handler becomes a pure state
  transformer.
-/

namespace FoundAs

/-! ## Content model (enum Type, interfaces Private and Public) -/

/-- The `Type` enum of app.tsx (TS auto-numbering: HTML_PAGE = 0,
MARKDOWN_PAGE = 1, REDIR = 2, BYTES = 3). -/
inductive Ty where
  | HTML_PAGE
  | MARKDOWN_PAGE
  | REDIR
  | BYTES
deriving DecidableEq, Repr

/-- Numeric value of the TS enum member. -/
def Ty.toCode : Ty → Nat
  | .HTML_PAGE => 0
  | .MARKDOWN_PAGE => 1
  | .REDIR => 2
  | .BYTES => 3

/-- The `Private` interface of app.tsx: the owner-side content record. -/
structure Private where
  type : Ty
  md : String
  html : String
  redir : String
deriving DecidableEq, Repr

/-- The `Public` interface of app.tsx: the visitor-facing view; all
fields optional, matching the object literals the code builds. -/
structure Public where
  redir : Option String := none
  html : Option String := none
  mime : Option String := none
  bytes : Option (List Nat) := none
deriving DecidableEq, Repr

/-! ## Identity derivation (deriveKP) -/

/-- The algorithm-parameter object handed to `subtle.deriveBits` in
`deriveKP`.  `salt` is the string passed to `textEncoder.encode`. -/
structure PBKDF2Params where
  name : String
  hash : String
  salt : String
  iterations : Nat
deriving DecidableEq, Repr

/-- tweetnacl `SignKeyPair`; key material as byte lists. -/
structure SignKeyPair where
  publicKey : List Nat
  secretKey : List Nat
deriving DecidableEq, Repr

/-- The opaque browser/tweetnacl crypto primitives used by `deriveKP`:
`deriveBits params password length` models
`subtle.deriveBits(params, importKey(password), length)`, and `fromSeed`
models `sign.keyPair.fromSeed`. -/
structure CryptoPrimitives where
  deriveBits : PBKDF2Params → String → Nat → List Nat
  fromSeed : List Nat → SignKeyPair

/-- `deriveKP(path, pw)` from app.tsx lines 189-206: PBKDF2 over SHA-256,
salt `"found.as/" ++ path`, 100000 iterations, 256 derived bits, expanded
into a signing keypair. -/
def deriveKP (C : CryptoPrimitives) (path pw : String) : SignKeyPair :=
  C.fromSeed
    (C.deriveBits
      { name := "PBKDF2", hash := "SHA-256",
        salt := "found.as/" ++ path, iterations := 100000 }
      pw 256)

/-! ## String helper lemmas -/

lemma string_append_left_cancel {a b c : String} (h : a ++ b = a ++ c) :
    b = c := by
  have hd : (a ++ b).data = (a ++ c).data := by rw [h]
  rw [String.data_append, String.data_append] at hd
  exact String.ext (List.append_cancel_left hd)

/-- An injective byte encoding of strings, used to instantiate the
abstract crypto primitives in witnesses. -/
def strBytes (s : String) : List Nat := s.data.map Char.toNat

lemma char_toNat_inj {c d : Char} (h : c.toNat = d.toNat) : c = d := by
  apply Char.ext
  simp only [Char.toNat] at h
  exact UInt32.toNat.inj h

lemma strBytes_inj {s t : String} (h : strBytes s = strBytes t) : s = t := by
  apply String.ext
  exact List.map_injective_iff.mpr (fun _ _ hc => char_toNat_inj hc) h

/-! ## Claim C1 -/

/-- C1. Key derivation is a pure deterministic function of
(path, password): repeated calls to `deriveKP` yield identical keypairs;
the PBKDF2 invocation uses salt `"found.as/" ++ path`, SHA-256, 100000
iterations and a 256-bit seed expanded to a signing keypair; and, under
the cryptographic assumptions that `deriveBits` separates distinct salts
(the "overwhelming probability" of the spec) and seed expansion is
injective, two distinct paths with the same password yield different
derived keypairs. -/
theorem c1_derive_deterministic_and_path_separated (C : CryptoPrimitives)
    (hsalt : ∀ s1 s2 pw n,
      C.deriveBits { name := "PBKDF2", hash := "SHA-256", salt := s1, iterations := 100000 } pw n =
      C.deriveBits { name := "PBKDF2", hash := "SHA-256", salt := s2, iterations := 100000 } pw n →
      s1 = s2)
    (hseed : Function.Injective C.fromSeed) :
    (∀ path pw, deriveKP C path pw = deriveKP C path pw) ∧
    (∀ path pw, deriveKP C path pw =
      C.fromSeed (C.deriveBits
        { name := "PBKDF2", hash := "SHA-256",
          salt := "found.as/" ++ path, iterations := 100000 } pw 256)) ∧
    (∀ p1 p2 pw, p1 ≠ p2 → deriveKP C p1 pw ≠ deriveKP C p2 pw) := by
  refine ⟨fun _ _ => rfl, fun _ _ => rfl, fun p1 p2 pw hne heq => ?_⟩
  apply hne
  have hbits := hseed heq
  have hs := hsalt _ _ pw 256 hbits
  exact string_append_left_cancel hs

/-- A concrete instantiation of the abstract crypto primitives whose
`deriveBits` output determines the salt and whose seed expansion is
injective. -/
def cryptoW : CryptoPrimitives :=
  { deriveBits := fun params _ _ => strBytes params.salt,
    fromSeed := fun seed => { publicKey := seed, secretKey := seed } }

theorem c1_witness :
    deriveKP cryptoW "a" "pw" ≠ deriveKP cryptoW "b" "pw" :=
  (c1_derive_deterministic_and_path_separated cryptoW
      (fun _ _ _ _ h => strBytes_inj h)
      (fun _ _ h => congrArg SignKeyPair.publicKey h)).2.2
    "a" "b" "pw" (by decide)

/-! ## Envelope codec -/

/-- The tree of values handed to the cbor-x `encode` function. -/
inductive CborVal where
  | num (q : ℚ)
  | str (s : String)
  | bytes (b : List Nat)
  | arr (items : List CborVal)
  | map (fields : List (String × CborVal))

/-- The cbor-x `encode`/`decode` pair, abstracted: `encode` is the
canonical binary encoding, `decodePriv` is `decode` at the `Private`
record type used by `fetchData`. -/
structure Codec where
  encode : CborVal → List Nat
  decodePriv : List Nat → Private

/-- tweetnacl `sign(message, secretKey)`: the signature-prefixed message,
modelled as the free record of exactly what was signed and with what. -/
structure SignedBlob where
  message : List Nat
  signedWith : List Nat
deriving DecidableEq

def sign (message : List Nat) (secretKey : List Nat) : SignedBlob :=
  { message := message, signedWith := secretKey }

/-- The request body `[operationCode, publicKey, signature]` posted to
`/api` by all three operations. -/
structure Envelope where
  code : Nat
  publicKey : List Nat
  signature : SignedBlob
deriving DecidableEq

/-- The cbor-x encoding view of a `Private` record (object with fields in
interface declaration order). -/
def privToVal (p : Private) : CborVal :=
  .map [("type", .num p.type.toCode), ("md", .str p.md),
        ("html", .str p.html), ("redir", .str p.redir)]

/-- The cbor-x encoding view of a `Public` record: only the fields
actually present on the object literal are encoded. -/
def pubToVal (p : Public) : CborVal :=
  .map ((p.redir.map (fun r => ("redir", CborVal.str r))).toList ++
        (p.html.map (fun h => ("html", CborVal.str h))).toList ++
        (p.mime.map (fun m => ("mime", CborVal.str m))).toList ++
        (p.bytes.map (fun b => ("bytes", CborVal.bytes b))).toList)

/-- The body built by `updateData` (app.tsx lines 129-146): operation
code 1, the public key, and a signature over
`encode([ts, path, encode(priv), encode(pub)])`.  `ts` is the value of
`new Date().getTime() / 1000` at send time. -/
def updateDataEnvelope (codec : Codec) (kp : SignKeyPair) (ts : ℚ)
    (path : String) (priv : Private) (pub : Public) : Envelope :=
  { code := 1, publicKey := kp.publicKey,
    signature := sign
      (codec.encode (.arr [.num ts, .str path,
        .bytes (codec.encode (privToVal priv)),
        .bytes (codec.encode (pubToVal pub))]))
      kp.secretKey }

/-- The body built by `fetchData` (app.tsx lines 167-183): operation
code 2 and a signature over `encode([ts, path])`. -/
def fetchDataEnvelope (codec : Codec) (kp : SignKeyPair) (ts : ℚ)
    (path : String) : Envelope :=
  { code := 2, publicKey := kp.publicKey,
    signature := sign (codec.encode (.arr [.num ts, .str path]))
      kp.secretKey }

/-- The body built by `updatePw` (app.tsx lines 148-165): operation
code 3 and a signature, under the current secret key, over
`encode([ts, path, newKey.publicKey])` where `newKey = deriveKP(path,
newPw)`. -/
def updatePwEnvelope (C : CryptoPrimitives) (codec : Codec)
    (kp : SignKeyPair) (ts : ℚ) (path newPw : String) : Envelope :=
  { code := 3, publicKey := kp.publicKey,
    signature := sign
      (codec.encode (.arr [.num ts, .str path,
        .bytes (deriveKP C path newPw).publicKey]))
      kp.secretKey }

/-! ## Claim C3 -/

/-- C3. Every request envelope is a triple (operationCode, publicKey,
signature) with codes write=1, read=2, rotate=3, and the signature covers
the canonical encoding of an array beginning with (timestamp, path)
followed by the operation-specific fields: nothing more for read, and the
serialized `Private` record plus serialized `Public` view for write; the
rotate envelope likewise carries the signer's public key and a signature
over the encoding of an array beginning with (timestamp, path). -/
theorem c3_envelope_shape (codec : Codec) (kp : SignKeyPair) (ts : ℚ)
    (path : String) (priv : Private) (pub : Public)
    (C : CryptoPrimitives) (newPw : String) :
    updateDataEnvelope codec kp ts path priv pub =
      { code := 1, publicKey := kp.publicKey,
        signature := sign
          (codec.encode (.arr [.num ts, .str path,
            .bytes (codec.encode (privToVal priv)),
            .bytes (codec.encode (pubToVal pub))]))
          kp.secretKey } ∧
    fetchDataEnvelope codec kp ts path =
      { code := 2, publicKey := kp.publicKey,
        signature := sign (codec.encode (.arr [.num ts, .str path]))
          kp.secretKey } ∧
    updatePwEnvelope C codec kp ts path newPw =
      { code := 3, publicKey := kp.publicKey,
        signature := sign
          (codec.encode (.arr (.num ts :: .str path ::
            [.bytes (deriveKP C path newPw).publicKey])))
          kp.secretKey } :=
  ⟨rfl, rfl, rfl⟩

/-! ## fetchData outcome classification -/

/-- `Response.ok` of the fetch API: status in the range 200-299. -/
def respOk (status : Nat) : Bool := 200 ≤ status && status ≤ 299

/-- An HTTP response as observed by `fetchData`: status, textual body
(for error branches) and binary body (for the success branch). -/
structure HttpResponse where
  status : Nat
  text : String
  body : List Nat
deriving DecidableEq

/-- The errors thrown by app.tsx, as discriminated by the catch handler:
the `FourOFour` and `FourXX` subclasses, and a generic error carrying its
JS `name` (`"Error"` for `new Error(...)`, `"AbortError"` for an aborted
fetch). -/
inductive JsError where
  | fourOFour (msg : String)
  | fourXX (msg : String)
  | generic (name : String) (msg : String)
deriving DecidableEq

/-- The outcome of `fetchData` (app.tsx lines 167-183) as a function of
the response: 404 throws `FourOFour`, other 4xx throws `FourXX`, any
other non-ok status throws a generic `Error`, and an ok response decodes
the body into a `Private` record. -/
def fetchDataResult (codec : Codec) (resp : HttpResponse) :
    Except JsError Private :=
  if !(respOk resp.status) then
    if resp.status = 404 then .error (.fourOFour resp.text)
    else if 400 ≤ resp.status && resp.status < 500 then
      .error (.fourXX resp.text)
    else .error (.generic "Error"
      (toString resp.status ++ " (" ++ resp.text ++ ")"))
  else .ok (codec.decodePriv resp.body)

/-! ## Claim C5 -/

/-- Exhaustive case analysis of `fetchDataResult` by status range. -/
lemma fetchDataResult_cases (codec : Codec) (resp : HttpResponse) :
    (respOk resp.status = true ∧
      fetchDataResult codec resp = .ok (codec.decodePriv resp.body)) ∨
    (respOk resp.status = false ∧ resp.status = 404 ∧
      fetchDataResult codec resp = .error (.fourOFour resp.text)) ∨
    (respOk resp.status = false ∧ resp.status ≠ 404 ∧
      400 ≤ resp.status ∧ resp.status < 500 ∧
      fetchDataResult codec resp = .error (.fourXX resp.text)) ∨
    (respOk resp.status = false ∧ resp.status ≠ 404 ∧
      ¬(400 ≤ resp.status ∧ resp.status < 500) ∧
      fetchDataResult codec resp = .error (.generic "Error"
        (toString resp.status ++ " (" ++ resp.text ++ ")"))) := by
  obtain ⟨s, t, b⟩ := resp
  simp only at *
  by_cases h1 : respOk s
  · exact Or.inl ⟨h1, by simp [fetchDataResult, h1]⟩
  · have h1' : respOk s = false := by simpa using h1
    by_cases h2 : s = 404
    · refine Or.inr (Or.inl ⟨h1', h2, ?_⟩)
      subst h2
      simp [fetchDataResult, h1']
    · by_cases h3 : 400 ≤ s ∧ s < 500
      · refine Or.inr (Or.inr (Or.inl ⟨h1', h2, h3.1, h3.2, ?_⟩))
        have h3' : (400 ≤ s && decide (s < 500)) = true := by
          simp only [Bool.and_eq_true, decide_eq_true_eq]; exact h3
        simp [fetchDataResult, h1', h2, h3']
      · refine Or.inr (Or.inr (Or.inr ⟨h1', h2, h3, ?_⟩))
        have h3' : (400 ≤ s && decide (s < 500)) = false := by
          by_contra hc
          simp only [Bool.not_eq_false, Bool.and_eq_true, decide_eq_true_eq] at hc
          exact h3 hc
        simp [fetchDataResult, h1', h2, h3']

lemma respOk_of_mid (s : Nat) (h : 400 ≤ s ∨ s = 404) : respOk s = false := by
  simp only [respOk, Bool.and_eq_false_iff, decide_eq_false_iff_not, not_le]
  right; omega

/-- C5. `fetchData` classifies read outcomes exactly by status code: it
throws `FourOFour` iff the status is 404, throws `FourXX` iff the status
is in 400..499 and not 404, throws a generic error for any other non-ok
status (in particular every status ≥ 500), and on success returns the
decoded record from the response body. -/
theorem c5_fetchData_classification (codec : Codec) (resp : HttpResponse) :
    (resp.status = 404 →
      fetchDataResult codec resp = .error (.fourOFour resp.text)) ∧
    (∀ m, fetchDataResult codec resp = .error (.fourOFour m) →
      resp.status = 404) ∧
    (400 ≤ resp.status → resp.status < 500 → resp.status ≠ 404 →
      fetchDataResult codec resp = .error (.fourXX resp.text)) ∧
    (∀ m, fetchDataResult codec resp = .error (.fourXX m) →
      400 ≤ resp.status ∧ resp.status < 500 ∧ resp.status ≠ 404) ∧
    (respOk resp.status = false → resp.status ≠ 404 →
      ¬(400 ≤ resp.status ∧ resp.status < 500) →
      fetchDataResult codec resp = .error (.generic "Error"
        (toString resp.status ++ " (" ++ resp.text ++ ")"))) ∧
    (500 ≤ resp.status →
      fetchDataResult codec resp = .error (.generic "Error"
        (toString resp.status ++ " (" ++ resp.text ++ ")"))) ∧
    (respOk resp.status = true →
      fetchDataResult codec resp = .ok (codec.decodePriv resp.body)) := by
  have hc := fetchDataResult_cases codec resp
  refine ⟨?_, ?_, ?_, ?_, ?_, ?_, ?_⟩
  · intro h404
    have hok := respOk_of_mid resp.status (Or.inr h404)
    rcases hc with ⟨h1, _⟩ | ⟨_, _, h⟩ | ⟨_, hne, _⟩ | ⟨_, hne, _⟩
    · rw [h1] at hok; cases hok
    · exact h
    · exact absurd h404 hne
    · exact absurd h404 hne
  · intro m h
    rcases hc with ⟨_, he⟩ | ⟨_, h404, _⟩ | ⟨_, _, _, _, he⟩ | ⟨_, _, _, he⟩
    · rw [he] at h; cases h
    · exact h404
    · rw [he] at h; cases h
    · rw [he] at h; cases h
  · intro hlo hhi hne
    have hok := respOk_of_mid resp.status (Or.inl hlo)
    rcases hc with ⟨h1, _⟩ | ⟨_, h404, _⟩ | ⟨_, _, _, _, he⟩ | ⟨_, _, hs, _⟩
    · rw [h1] at hok; cases hok
    · exact absurd h404 hne
    · exact he
    · exact absurd ⟨hlo, hhi⟩ hs
  · intro m h
    rcases hc with ⟨_, he⟩ | ⟨_, _, he⟩ | ⟨_, hne, hlo, hhi, _⟩ | ⟨_, _, _, he⟩
    · rw [he] at h; cases h
    · rw [he] at h; cases h
    · exact ⟨hlo, hhi, hne⟩
    · rw [he] at h; cases h
  · intro hok hne hs
    rcases hc with ⟨h1, _⟩ | ⟨_, h404, _⟩ | ⟨_, _, hlo, hhi, _⟩ | ⟨_, _, _, he⟩
    · rw [h1] at hok; cases hok
    · exact absurd h404 hne
    · exact absurd ⟨hlo, hhi⟩ hs
    · exact he
  · intro h5
    have hok := respOk_of_mid resp.status (Or.inl (by omega))
    rcases hc with ⟨h1, _⟩ | ⟨_, h404, _⟩ | ⟨_, _, hlo, hhi, _⟩ | ⟨_, _, _, he⟩
    · rw [h1] at hok; cases hok
    · omega
    · omega
    · exact he
  · intro hok
    rcases hc with ⟨_, he⟩ | ⟨h1, _, _⟩ | ⟨h1, _, _, _, _⟩ | ⟨h1, _, _, _⟩
    · exact he
    · rw [h1] at hok; cases hok
    · rw [h1] at hok; cases hok
    · rw [h1] at hok; cases hok

def codecW : Codec :=
  { encode := fun _ => [], decodePriv := fun _ => ⟨.REDIR, "", "", ""⟩ }

theorem c5_witness :
    fetchDataResult codecW ⟨404, "nf", []⟩ = .error (.fourOFour "nf") ∧
    fetchDataResult codecW ⟨403, "au", []⟩ = .error (.fourXX "au") ∧
    fetchDataResult codecW ⟨500, "ise", []⟩ =
      .error (.generic "Error" "500 (ise)") ∧
    fetchDataResult codecW ⟨200, "", [7]⟩ = .ok (codecW.decodePriv [7]) := by
  refine ⟨(c5_fetchData_classification codecW ⟨404, "nf", []⟩).1 rfl,
    (c5_fetchData_classification codecW ⟨403, "au", []⟩).2.2.1
      (by decide) (by decide) (by decide),
    ?_,
    (c5_fetchData_classification codecW ⟨200, "", [7]⟩).2.2.2.2.2.2
      (by decide)⟩
  have h := (c5_fetchData_classification codecW ⟨500, "ise", []⟩).2.2.2.2.2.1
    (by decide)
  simpa using h

/-! ## Transport coordinator: the post singleton (app.tsx lines 115-127)

Controllers are numbered in creation order; `current` is the id held by
the module-level `postSingleton` variable, `abortedIds` the ids whose
`abort()` has been called, `nextId` the next fresh id. -/

structure NetState where
  current : Option Nat
  abortedIds : List Nat
  nextId : Nat
deriving DecidableEq, Repr

/-- The first half of `post`: if a singleton controller exists and its
signal is not yet aborted, abort it. -/
def abortPrevious (s : NetState) : NetState :=
  match s.current with
  | some cid =>
      if cid ∈ s.abortedIds then s
      else { s with abortedIds := cid :: s.abortedIds }
  | none => s

/-- `post(body)`: abort the previous controller if live, install a fresh
`AbortController` as the singleton, and issue the request under its
signal.  Returns the new state and the id of the controller the new
request was issued with. -/
def post (s : NetState) : NetState × Nat :=
  let s1 := abortPrevious s
  ({ current := some s1.nextId, abortedIds := s1.abortedIds,
     nextId := s1.nextId + 1 }, s1.nextId)

/-- Well-formedness: every controller id ever handed out is below
`nextId`. -/
def NetState.wf (s : NetState) : Bool :=
  s.abortedIds.all (fun i => decide (i < s.nextId)) &&
    (match s.current with
     | some c => decide (c < s.nextId)
     | none => true)

/-- The initial module state: `postSingleton = null`. -/
def netInit : NetState := { current := none, abortedIds := [], nextId := 0 }

lemma abortPrevious_nextId (s : NetState) :
    (abortPrevious s).nextId = s.nextId := by
  unfold abortPrevious
  cases hc : s.current with
  | none => rfl
  | some cid =>
      by_cases hm : cid ∈ s.abortedIds
      · simp [hm]
      · simp [hm]

lemma mem_abortedIds_abortPrevious {s : NetState} {x : Nat}
    (h : x ∈ s.abortedIds) : x ∈ (abortPrevious s).abortedIds := by
  unfold abortPrevious
  cases hc : s.current with
  | none => exact h
  | some cid =>
      by_cases hm : cid ∈ s.abortedIds
      · simpa [hm] using h
      · simp only [if_neg hm]
        exact List.mem_cons_of_mem _ h

lemma current_mem_abortPrevious {s : NetState} {c : Nat}
    (h : s.current = some c) : c ∈ (abortPrevious s).abortedIds := by
  unfold abortPrevious
  rw [h]
  by_cases hm : c ∈ s.abortedIds
  · simp only [if_pos hm]
    exact hm
  · simp only [if_neg hm]
    exact List.mem_cons_self _ _

lemma abortPrevious_bound {s : NetState} (hwf : s.wf = true) :
    ∀ x ∈ (abortPrevious s).abortedIds, x < s.nextId := by
  unfold NetState.wf at hwf
  simp only [Bool.and_eq_true, List.all_eq_true, decide_eq_true_eq] at hwf
  obtain ⟨hall, hcur⟩ := hwf
  intro x hx
  unfold abortPrevious at hx
  cases hc : s.current with
  | none => rw [hc] at hx; exact hall x hx
  | some c =>
      rw [hc] at hx
      rw [hc] at hcur
      dsimp only at hx hcur
      by_cases hm : c ∈ s.abortedIds
      · rw [if_pos hm] at hx
        exact hall x hx
      · rw [if_neg hm] at hx
        rcases List.mem_cons.mp hx with rfl | hx'
        · simpa using hcur
        · exact hall x hx'

/-! ## The App component's reactive state and fetch settle handlers -/

/-- The slice of `App` component state touched by the modelled handlers.
`alerts` records the arguments of `window.alert` calls, in order. -/
structure AppState where
  pw : String
  newPw : String
  pwStatus : Option Bool
  pathIsNew : Bool
  priv : Private
  working : Bool
  alerts : List String
deriving DecidableEq, Repr

/-- The catch handler of the fetch effect (app.tsx lines 296-305):
`FourOFour` sets `pwStatus` true and `pathIsNew` true; `FourXX` sets
`pwStatus` false; any other error alerts unless its name is
`"AbortError"`. -/
def fetchCatch (st : AppState) (e : JsError) : AppState :=
  match e with
  | .fourOFour _ => { st with pwStatus := some true, pathIsNew := true }
  | .fourXX _ => { st with pwStatus := some false }
  | .generic name msg =>
      if name ≠ "AbortError" then { st with alerts := st.alerts ++ [msg] }
      else st

/-- The whole `.then`/`.catch`/`.finally` chain of the fetch effect
(app.tsx lines 290-308): success installs the received record and marks
the password good and the path not new; errors go through `fetchCatch`;
`finally` clears `working`. -/
def fetchSettle (st : AppState) (r : Except JsError Private) : AppState :=
  let st' := match r with
    | .ok recvPriv =>
        { st with priv := recvPriv, pwStatus := some true,
                  pathIsNew := false }
    | .error e => fetchCatch st e
  { st' with working := false }

/-- What the pending fetch with controller id `cid` eventually delivers:
if its controller has been aborted, the promise rejects with an
`AbortError`; otherwise the server response is classified by
`fetchData`. -/
def deliver (net : NetState) (cid : Nat) (codec : Codec)
    (resp : HttpResponse) : Except JsError Private :=
  if cid ∈ net.abortedIds then
    .error (.generic "AbortError" "The operation was aborted.")
  else fetchDataResult codec resp

/-! ## Claim C2 -/

/-- C2. At most one request is outstanding: `post` aborts the previous
controller (when one exists and is not yet aborted) before issuing the
new request under a fresh, live controller; consequently, when a second
`post` supersedes a request still outstanding, the first request's
controller ends up aborted, its fetch delivers an `AbortError`, and the
settle chain leaves `pwStatus`, `pathIsNew`, the content record and the
alert log untouched. -/
theorem c2_single_flight (s0 : NetState) (hwf : s0.wf = true) :
    (∀ c, s0.current = some c → c ∈ (post s0).1.abortedIds) ∧
    (∀ c, s0.current = some c → c ∈ s0.abortedIds →
      abortPrevious s0 = s0) ∧
    ((post s0).1.current = some (post s0).2 ∧
      (post s0).2 ∉ (post s0).1.abortedIds) ∧
    ((post s0).2 ∈ (post (post s0).1).1.abortedIds) ∧
    (∀ (st : AppState) (codec : Codec) (resp : HttpResponse),
      (fetchSettle st
        (deliver (post (post s0).1).1 (post s0).2 codec resp)).pwStatus
          = st.pwStatus ∧
      (fetchSettle st
        (deliver (post (post s0).1).1 (post s0).2 codec resp)).pathIsNew
          = st.pathIsNew ∧
      (fetchSettle st
        (deliver (post (post s0).1).1 (post s0).2 codec resp)).priv
          = st.priv ∧
      (fetchSettle st
        (deliver (post (post s0).1).1 (post s0).2 codec resp)).alerts
          = st.alerts) := by
  have hfresh : (post s0).2 ∉ (post s0).1.abortedIds := by
    intro hmem
    simp only [post] at hmem
    have hb := abortPrevious_bound hwf _ hmem
    have hn := abortPrevious_nextId s0
    omega
  have hsecond : (post s0).2 ∈ (post (post s0).1).1.abortedIds := by
    show (post s0).2 ∈ (abortPrevious (post s0).1).abortedIds
    exact current_mem_abortPrevious (s := (post s0).1) rfl
  refine ⟨?_, ?_, ⟨rfl, hfresh⟩, hsecond, ?_⟩
  · intro c hc
    exact current_mem_abortPrevious hc
  · intro c hc hmem
    unfold abortPrevious
    rw [hc]
    simp [hmem]
  · intro st codec resp
    have habort : deliver (post (post s0).1).1 (post s0).2 codec resp =
        .error (.generic "AbortError" "The operation was aborted.") := by
      unfold deliver
      simp [hsecond]
    rw [habort]
    refine ⟨rfl, rfl, rfl, ?_⟩
    show (fetchCatch st _).alerts = st.alerts
    unfold fetchCatch
    simp

theorem c2_witness :
    ((post netInit).2 ∈ (post (post netInit).1).1.abortedIds) ∧
    (fetchSettle
        { pw := "", newPw := "", pwStatus := some true, pathIsNew := true,
          priv := ⟨.REDIR, "", "", ""⟩, working := true, alerts := [] }
        (deliver (post (post netInit).1).1 (post netInit).2 codecW
          ⟨200, "", []⟩)).priv
      = Private.mk .REDIR "" "" "" := by
  have h := c2_single_flight netInit (by decide)
  exact ⟨h.2.2.2.1,
    (h.2.2.2.2
      { pw := "", newPw := "", pwStatus := some true, pathIsNew := true,
        priv := ⟨.REDIR, "", "", ""⟩, working := true, alerts := [] }
      codecW ⟨200, "", []⟩).2.2.1⟩

/-! ## Claim C6 -/

/-- C6. When the fetch completes with a 404, the controller settles with
`pwStatus = true` and `pathIsNew = true` (owned, unclaimed); the local
content record, the alert log, the password fields — everything except
those two flags and the `working` reset — are unchanged. -/
theorem c6_notFound_settles_owned_unclaimed (codec : Codec)
    (resp : HttpResponse) (st : AppState) (h : resp.status = 404) :
    fetchSettle st (fetchDataResult codec resp) =
      { st with pwStatus := some true, pathIsNew := true,
                working := false } := by
  have h4 := (c5_fetchData_classification codec resp).1 h
  rw [h4]
  rfl

theorem c6_witness :
    fetchSettle
        { pw := "p", newPw := "", pwStatus := none, pathIsNew := false,
          priv := ⟨.MARKDOWN_PAGE, "x", "", ""⟩, working := true,
          alerts := [] }
        (fetchDataResult codecW ⟨404, "not found", []⟩) =
      { pw := "p", newPw := "", pwStatus := some true, pathIsNew := true,
        priv := ⟨.MARKDOWN_PAGE, "x", "", ""⟩, working := false,
        alerts := [] } :=
  c6_notFound_settles_owned_unclaimed codecW ⟨404, "not found", []⟩
    { pw := "p", newPw := "", pwStatus := none, pathIsNew := false,
      priv := ⟨.MARKDOWN_PAGE, "x", "", ""⟩, working := true,
      alerts := [] } rfl

/-! ## Claim C7 -/

/-- C7 counterexample. The claim states that a non-404 4xx outcome also
marks the claim status claimed; the code's `FourXX` branch only sets
`pwStatus` to false and leaves `pathIsNew` untouched, so from a state
with `pathIsNew = true` (path previously seen unclaimed) a 403 response
does not produce the claimed-marked state. -/
theorem c7_counterexample :
    ¬ (fetchSettle
        { pw := "p", newPw := "", pwStatus := some true, pathIsNew := true,
          priv := ⟨.REDIR, "", "", ""⟩, working := true, alerts := [] }
        (fetchDataResult codecW ⟨403, "forbidden", []⟩) =
      { pw := "p", newPw := "", pwStatus := some false, pathIsNew := false,
        priv := ⟨.REDIR, "", "", ""⟩, working := false, alerts := [] }) := by
  decide

/-- C7 amended. When the fetch completes with a 4xx status other than
404, the controller sets `pwStatus` to false (not owned) and leaves
`pathIsNew` — the claimed/unclaimed marker — as it was; the local
content record and alert log are not mutated. -/
theorem c7_fourxx_sets_pwStatus_false (codec : Codec)
    (resp : HttpResponse) (st : AppState) (h1 : 400 ≤ resp.status)
    (h2 : resp.status < 500) (h3 : resp.status ≠ 404) :
    fetchSettle st (fetchDataResult codec resp) =
      { st with pwStatus := some false, working := false } := by
  have h4 := (c5_fetchData_classification codec resp).2.2.1 h1 h2 h3
  rw [h4]
  rfl

theorem c7_witness :
    fetchSettle
        { pw := "p", newPw := "", pwStatus := some true, pathIsNew := true,
          priv := ⟨.REDIR, "", "", ""⟩, working := true, alerts := [] }
        (fetchDataResult codecW ⟨403, "forbidden", []⟩) =
      { pw := "p", newPw := "", pwStatus := some false, pathIsNew := true,
        priv := ⟨.REDIR, "", "", ""⟩, working := false, alerts := [] } :=
  c7_fourxx_sets_pwStatus_false codecW ⟨403, "forbidden", []⟩
    { pw := "p", newPw := "", pwStatus := some true, pathIsNew := true,
      priv := ⟨.REDIR, "", "", ""⟩, working := true, alerts := [] }
    (by decide) (by decide) (by decide)

/-! ## Claim C4 -/

/-- The success continuation of the change-password button (app.tsx
lines 457-478): `setPw(newPw); setNewPw("")` (the popover is also
hidden, a DOM effect outside this state slice). -/
def changePwSuccess (st : AppState) : AppState :=
  { st with pw := st.newPw, newPw := "" }

/-- C4 counterexample. The claim states that rotate success clears any
stale claim/ownership state; the code's success continuation only swaps
the password fields, so from a state with `pwStatus = some true` the
handler does not reset `pwStatus` to its cleared (undefined) value. -/
theorem c4_counterexample :
    ¬ (changePwSuccess
        { pw := "old", newPw := "new", pwStatus := some true,
          pathIsNew := false, priv := ⟨.REDIR, "", "", ""⟩,
          working := true, alerts := [] } =
      { pw := "new", newPw := "", pwStatus := none, pathIsNew := false,
        priv := ⟨.REDIR, "", "", ""⟩, working := true, alerts := [] }) := by
  decide

/-- C4 amended. The rotate-password operation builds an envelope with
operation code 3 whose signed payload is (timestamp, path,
newPublicKey), where newPublicKey is the public key derived from
(path, newPassword), signed with the current identity's secret key; on
success the active password state is swapped to the new password and the
new-password field is emptied (triggering rederivation and a fresh
settle cycle through the reactive effects), while the stale
claim/ownership flags are left in place until that cycle's fetch outcome
overwrites them. -/
theorem c4_rotate_envelope_and_success (C : CryptoPrimitives)
    (codec : Codec) (kp : SignKeyPair) (ts : ℚ) (path newPw : String)
    (st : AppState) :
    updatePwEnvelope C codec kp ts path newPw =
      { code := 3, publicKey := kp.publicKey,
        signature := sign
          (codec.encode (.arr [.num ts, .str path,
            .bytes (deriveKP C path newPw).publicKey]))
          kp.secretKey } ∧
    changePwSuccess st = { st with pw := st.newPw, newPw := "" } ∧
    (changePwSuccess st).pwStatus = st.pwStatus ∧
    (changePwSuccess st).pathIsNew = st.pathIsNew :=
  ⟨rfl, rfl, rfl, rfl⟩

/-! ## Document shell (intoDoc, app.tsx lines 44-54) -/

/-- Global single-character replacement, the semantics of JS
`String.prototype.replace` with a global single-character regex. -/
def replaceChar (c : Char) (r : List Char) (s : List Char) : List Char :=
  s.flatMap (fun x => if x = c then r else [x])

/-- The escaping chain applied to the front-matter title:
`.replace(/&/g, "&amp;").replace(/</g, "&lt;").replace(/>/g, "&gt;")`. -/
def escapeHtmlChars (s : List Char) : List Char :=
  replaceChar '>' "&gt;".data
    (replaceChar '<' "&lt;".data
      (replaceChar '&' "&amp;".data s))

def escapeHtml (s : String) : String := String.mk (escapeHtmlChars s.data)

/-- The fixed document prefix `intoDoc` emits up to the optional title
element. -/
def docHead : String :=
  "<!DOCTYPE html>\n<html>\n<head>\n<meta name=\"viewport\" content=\"width=device-width, initial-scale=1.0\"/>\n<style>:root \x7b color-scheme: dark light; \x7d</style>\n"

/-- The fixed document suffix after the optional title: head close, body
holding the rendered fragment, html close. -/
def docTail (fragment : String) : String :=
  "\n</head>\n<body>" ++ fragment ++ "</body>\n</html>"

/-- `intoDoc(fragment, attrs)`: the minimal document shell wrapped around
rendered Markdown.  `title` is `attrs["title"]`; a missing or empty
(falsy) title emits no title element, otherwise the escaped title is
embedded in a `<title>` element. -/
def intoDoc (fragment : String) (title : Option String) : String :=
  docHead ++
    (match title with
     | some t => if t = "" then "" else "<title>" ++ escapeHtml t ++ "</title>"
     | none => "") ++
    docTail fragment

/-- The simultaneous per-character reading of the escaping chain. -/
def entityOf (c : Char) : List Char :=
  if c = '&' then "&amp;".data
  else if c = '<' then "&lt;".data
  else if c = '>' then "&gt;".data
  else [c]

lemma replaceChar_append (c : Char) (r : List Char) (s1 s2 : List Char) :
    replaceChar c r (s1 ++ s2) = replaceChar c r s1 ++ replaceChar c r s2 := by
  unfold replaceChar
  exact List.flatMap_append _ _ _

lemma escapeHtmlChars_cons (x : Char) (s : List Char) :
    escapeHtmlChars (x :: s) = entityOf x ++ escapeHtmlChars s := by
  unfold escapeHtmlChars entityOf
  by_cases hamp : x = '&'
  · subst hamp
    simp [replaceChar, replaceChar_append]
  · by_cases hlt : x = '<'
    · subst hlt
      simp [replaceChar, replaceChar_append]
    · by_cases hgt : x = '>'
      · subst hgt
        simp [replaceChar, replaceChar_append]
      · simp [replaceChar, replaceChar_append, hamp, hlt, hgt]

lemma escapeHtmlChars_eq_flatMap (s : List Char) :
    escapeHtmlChars s = s.flatMap entityOf := by
  induction s with
  | nil => rfl
  | cons x t ih => rw [escapeHtmlChars_cons, List.flatMap_cons, ih]

lemma not_mem_entityOf_lt (a : Char) : '<' ∉ entityOf a := by
  unfold entityOf
  by_cases hamp : a = '&'
  · simp [hamp]
  · by_cases hlt : a = '<'
    · simp [hamp, hlt]
    · by_cases hgt : a = '>'
      · simp [hamp, hlt, hgt]
      · simp [hamp, hlt, hgt]
        exact fun hc => hlt hc.symm

lemma not_mem_entityOf_gt (a : Char) : '>' ∉ entityOf a := by
  unfold entityOf
  by_cases hamp : a = '&'
  · simp [hamp]
  · by_cases hlt : a = '<'
    · simp [hamp, hlt]
    · by_cases hgt : a = '>'
      · simp [hamp, hlt, hgt]
      · simp [hamp, hlt, hgt]
        exact fun hc => hgt hc.symm

/-! ## Claim C8 -/

/-- C8. The document shell HTML-escapes the user-supplied front-matter
title before embedding it in the generated title element: the emitted
document is the fixed head prefix, then `<title>` wrapping the escaped
title, then the tail; the escaping maps every `&`, `<`, `>` of the title
to `&amp;`, `&lt;`, `&gt;` (and every other character to itself), so the
escaped title contains no `<` or `>` and no user-supplied markup reaches
the document head. -/
theorem c8_title_escaped (fragment title : String) (h : title ≠ "") :
    intoDoc fragment (some title) =
      docHead ++ ("<title>" ++ escapeHtml title ++ "</title>") ++
        docTail fragment ∧
    (escapeHtml title).data = title.data.flatMap entityOf ∧
    '<' ∉ (escapeHtml title).data ∧
    '>' ∉ (escapeHtml title).data := by
  refine ⟨by simp [intoDoc, h], escapeHtmlChars_eq_flatMap title.data, ?_, ?_⟩
  · show '<' ∉ escapeHtmlChars title.data
    rw [escapeHtmlChars_eq_flatMap]
    intro hmem
    rcases List.mem_flatMap.mp hmem with ⟨a, _, ha⟩
    exact not_mem_entityOf_lt a ha
  · show '>' ∉ escapeHtmlChars title.data
    rw [escapeHtmlChars_eq_flatMap]
    intro hmem
    rcases List.mem_flatMap.mp hmem with ⟨a, _, ha⟩
    exact not_mem_entityOf_gt a ha

theorem c8_witness :
    intoDoc "<p>hi</p>" (some "a<b&c>d") =
      docHead ++
        ("<title>" ++ escapeHtml "a<b&c>d" ++ "</title>") ++
        docTail "<p>hi</p>" ∧
    (escapeHtml "a<b&c>d").data = ("a<b&c>d").data.flatMap entityOf ∧
    '<' ∉ (escapeHtml "a<b&c>d").data ∧
    '>' ∉ (escapeHtml "a<b&c>d").data :=
  c8_title_escaped "<p>hi</p>" "a<b&c>d" (by decide)

/-! ## Claim C9 -/

/-- The onChange handler of the content-type select (app.tsx
lines 361-382): spread the previous record and overwrite `type`. -/
def setContentType (p : Private) (t : Ty) : Private := { p with type := t }

/-- C9. Switching the content record's active tag changes only the
`type` field: the new tag is installed while the `md`, `html` and
`redir` buffers are preserved, so flipping between Markdown, HTML and
redirect loses no unsaved text. -/
theorem c9_tag_switch_preserves_buffers (p : Private) (t : Ty) :
    (setContentType p t).type = t ∧
    (setContentType p t).md = p.md ∧
    (setContentType p t).html = p.html ∧
    (setContentType p t).redir = p.redir :=
  ⟨rfl, rfl, rfl, rfl⟩

/-! ## Claim C10 -/

/-- A JS `File` as the handlers see it: its content bytes and MIME
type; `size` is the byte length. -/
structure JsFile where
  bytes : List Nat
  mime : String
deriving DecidableEq

def JsFile.size (f : JsFile) : Nat := f.bytes.length

/-- Result of the file-input onChange handler (app.tsx lines 388-409):
the stored `file` state afterwards, whether `window.alert` fired, and
whether the input element's value was reset to its default. -/
structure FileInputResult where
  file : Option JsFile
  alerted : Bool
  inputReset : Bool
deriving DecidableEq

/-- The file-input onChange handler: no selection clears the stored
file; an oversized selection (> 1 MiB) alerts, resets the input and
leaves the stored file untouched; otherwise the selection is stored. -/
def fileInputChange (stored : Option JsFile) (picked : Option JsFile) :
    FileInputResult :=
  match picked with
  | none => { file := none, alerted := false, inputReset := false }
  | some f =>
      if f.size > 1024 * 1024 then
        { file := stored, alerted := true, inputReset := true }
      else
        { file := some f, alerted := false, inputReset := false }

/-- The publish button's disabled condition (app.tsx lines 418-421):
`working || !pwStatus || (type === BYTES && !file)`.  An undefined
`pwStatus` is falsy. -/
def publishDisabled (working : Bool) (pwStatus : Option Bool) (ty : Ty)
    (file : Option JsFile) : Bool :=
  working || !(pwStatus.getD false) ||
    (decide (ty = Ty.BYTES) && file.isNone)

/-- The `Public` view built by the publish handler for a stored file:
`{ bytes: await file.arrayBuffer(), mime: file.type }`. -/
def bytesPub (f : JsFile) : Public :=
  { mime := some f.mime, bytes := some f.bytes }

/-- C10. Selecting a file larger than 1048576 bytes is rejected: the
stored file selection is unchanged, an alert fires and the input is
reset to its default; the handler only ever stores files of at most
1048576 bytes (given the stored file already satisfied the bound); with
content type BYTES and no stored file the publish button is disabled;
and the `Public` view built from an accepted file carries at most
1048576 bytes.  Hence no write envelope built from the file picker
carries more than 1 MiB of bytes. -/
theorem c10_file_size_gate (stored : Option JsFile) (f : JsFile)
    (picked : Option JsFile) (hbig : f.size > 1048576)
    (hok : ∀ g ∈ stored, g.size ≤ 1048576) :
    ((fileInputChange stored (some f)).file = stored ∧
     (fileInputChange stored (some f)).alerted = true ∧
     (fileInputChange stored (some f)).inputReset = true) ∧
    (∀ g ∈ (fileInputChange stored picked).file, g.size ≤ 1048576) ∧
    (∀ w ps, publishDisabled w ps Ty.BYTES none = true) ∧
    (∀ g, g.size ≤ 1048576 → ∀ b ∈ (bytesPub g).bytes,
      b.length ≤ 1048576) := by
  have hbig' : f.size > 1024 * 1024 := by
    simpa using hbig
  refine ⟨?_, ?_, ?_, ?_⟩
  · simp only [fileInputChange]
    rw [if_pos hbig']
    exact ⟨rfl, rfl, rfl⟩
  · intro g hg
    cases picked with
    | none => simp [fileInputChange] at hg
    | some p =>
        simp only [fileInputChange] at hg
        by_cases hp : p.size > 1024 * 1024
        · rw [if_pos hp] at hg
          exact hok g hg
        · rw [if_neg hp] at hg
          simp at hg
          subst hg
          omega
  · intro w ps
    simp [publishDisabled]
  · intro g hg b hb
    simp only [bytesPub, Option.mem_def, Option.some.injEq] at hb
    subst hb
    exact hg

theorem c10_witness :
    (fileInputChange none
      (some ⟨List.replicate 1048577 0, "application/octet-stream"⟩)).file
        = none ∧
    (fileInputChange none
      (some ⟨List.replicate 1048577 0, "application/octet-stream"⟩)).alerted
        = true ∧
    publishDisabled false (some true) Ty.BYTES none = true := by
  have h := c10_file_size_gate none
    ⟨List.replicate 1048577 0, "application/octet-stream"⟩ none
    (by show (List.replicate 1048577 (0 : Nat)).length > 1048576
        rw [List.length_replicate]
        norm_num)
    (by simp)
  exact ⟨h.1.1, h.1.2.1, h.2.2.1 false (some true)⟩

end FoundAs
